import Mathlib

/-!
Verification of the AllocUtil builders library (AU.h / AU_Builders.c).

The C sources are shallowly embedded below.  The modelled platform is LP64
(the one the source targets with its `long` arithmetic):

* `long` is 64 bits, so `LONG_MAX = 2^63 - 1` and `sizeof(long) = 8`;
* `union AlignmentType` contains a `long double`, so its size — the value of
  `ALIGNMENT_BOUNDARY` — is 16.

Machine integers are modelled as `Int`.  All arithmetic the C code actually
performs is guarded by its own range checks, so exact `Int` arithmetic agrees
with `long` arithmetic on every path that is free of undefined behaviour;
paths on which the C code would overflow a signed computation (or fail one of
the assertions the claims are about) are made explicit with a dedicated
`ub` result constructor where a claim depends on them.

The byte builder is generic in the type used to model its backing memory:

* for the byte-level claims the memory is a `List Int` of byte values whose
  length is the current allocation size (`cap`); a `memcpy` past the end of
  the allocation is undefined behaviour in C, and the model simply does not
  retain bytes that fall outside the allocation;
* for the stack allocator the only accesses are whole-`long` reads and
  writes at 16-aligned offsets (which can never partially overlap), so its
  memory is modelled as a write log of `(byte offset, long value)` pairs.

`xmalloc` / `xrealloc` are external; each operation that may call them takes
the allocator behaviour as an explicit argument (`mok` for a malloc that
succeeds, and an `xr` function returning `none` when `xrealloc` fails and
`some` of the new memory contents otherwise; `xrealloc` preserves the stored
contents up to the old size).
-/

namespace AllocUtil

/-- Maximum value of the 64-bit `long` of the modelled LP64 platform. -/
def LONG_MAX : Int := 2 ^ 63 - 1

/-- Minimum value of the 32-bit `int` of the modelled platform. -/
def INT_MIN : Int := -(2 ^ 31)

/-- Error code `AU_ERR_XMALLOC` from AU.h (`INT_MIN`). -/
def AU_ERR_XMALLOC : Int := INT_MIN

/-- Error code `AU_ERR_XREALLOC` from AU.h (`INT_MIN + 1`). -/
def AU_ERR_XREALLOC : Int := INT_MIN + 1

/-- Error code `AU_ERR_XCALLOC` from AU.h (`INT_MIN + 2`). -/
def AU_ERR_XCALLOC : Int := INT_MIN + 2

/-- Error code `AU_ERR_OVERFLOW` from AU.h (`INT_MIN + 3`). -/
def AU_ERR_OVERFLOW : Int := INT_MIN + 3

/-- Value of `ALIGNMENT_BOUNDARY` (`sizeof(union AlignmentType)`) on the
modelled platform: the union holds a `long double`, giving size 16. -/
def ALIGNMENT_BOUNDARY : Int := 16

/-- The struct `AU_ByteBuilder` from AU_Builders.c: a backing allocation
`mem`, the number `used` of occupied bytes and the allocation size `cap`.
The type of the memory model is a parameter (see the file comment). -/
structure AU_ByteBuilder (μ : Type) where
  mem : μ
  used : Int
  cap : Int
deriving DecidableEq

/-- Result of a byte-builder append: either success, carrying the updated
builder and the returned offset (`AU_B1_Append` returns the offset, and
`AU_B1_AppendForSetup` returns the pointer `mem + offset`), or a failure,
carrying the error code passed to `ISSUE_ERROR` and the (unchanged) builder
visible to the caller after the early return. -/
inductive B1Res (μ : Type) where
  | ok (b1 : AU_ByteBuilder μ) (off : Int)
  | err (code : Int) (b1 : AU_ByteBuilder μ)
deriving DecidableEq

/-- The local variable `new_cap` of `AU_B1_AppendForSetup` (line 73 of
AU_Builders.c): `LONG_MAX` when `cap > LONG_MAX/2` (C truncating
division), else `cap * 2`. -/
def b1NewCap (cap : Int) : Int :=
  if cap > Int.tdiv LONG_MAX 2 then LONG_MAX else cap * 2

/-- The function `AU_B1_AppendForSetup` from AU_Builders.c, lines 58-85.
Checks `used > LONG_MAX - size`, then on `used + size > cap` grows: if
`cap == LONG_MAX` it fails with overflow, otherwise the new capacity is
`b1NewCap cap` and `xrealloc` (the argument `xr`) is attempted.  On
success the returned pointer is `mem + used` (modelled by the old `used`
offset) and `used` is advanced by `size`.  The assertions
`ASSERT_VALID_B1` and `assert(size >= 0)` are preconditions and appear as
hypotheses of the theorems that need them. -/
def AU_B1_AppendForSetup {μ : Type} (xr : μ → Int → Option μ)
    (b1 : AU_ByteBuilder μ) (size : Int) : B1Res μ :=
  if b1.used > LONG_MAX - size then
    .err AU_ERR_OVERFLOW b1
  else if b1.used + size > b1.cap then
    if b1.cap = LONG_MAX then
      .err AU_ERR_OVERFLOW b1
    else
      match xr b1.mem (b1NewCap b1.cap) with
      | none => .err AU_ERR_XREALLOC b1
      | some p => .ok ⟨p, b1.used + size, b1NewCap b1.cap⟩ b1.used
  else
    .ok ⟨b1.mem, b1.used + size, b1.cap⟩ b1.used

/-- Byte-level model of `xrealloc`: when it succeeds it returns an
allocation of the new size whose first `min(old, new)` bytes are the old
contents (fresh bytes are modelled as 0, like the model's `xmalloc`).
The flag `rok` selects whether the call succeeds. -/
def xreallocBytes (rok : Bool) : List Int → Int → Option (List Int) :=
  fun m nc => if rok then some (m.take nc.toNat ++ List.replicate (nc.toNat - m.length) 0) else none

/-- The function `memcpy(mem + off, src, src.length)` restricted to the
builder allocation: bytes are stored at positions `off`, `off+1`, ...;
a store past the end of the allocation is undefined behaviour in C and
such bytes are simply not part of the allocation (`List.set` drops them). -/
def listWrite : List Int → Nat → List Int → List Int
  | m, _, [] => m
  | m, o, b :: rest => listWrite (m.set o b) (o + 1) rest

/-- The function `AU_B1_Setup` from AU_Builders.c, lines 30-42: allocates
`cap` bytes via `xmalloc` (success selected by `mok`; fresh bytes modelled
as 0), sets `used = 0`.  Returns `none` when `xmalloc` fails (the C code
returns `AU_ERR_XMALLOC`).  The assertion `assert(cap > 0)` is a
precondition. -/
def AU_B1_Setup (mok : Bool) (cap : Int) : Option (AU_ByteBuilder (List Int)) :=
  if mok then some ⟨List.replicate cap.toNat 0, 0, cap⟩ else none

/-- The function `AU_B1_Append` from AU_Builders.c, lines 44-56: saves
`offset = used`, calls `AU_B1_AppendForSetup` with `size = chunk.length`,
and on success copies the chunk to the returned address.  On failure the
C function returns `-1`; the failure's `ISSUE_ERROR` code is the one from
`AU_B1_AppendForSetup`, kept in the `err` constructor. -/
def AU_B1_Append (xr : List Int → Int → Option (List Int))
    (b1 : AU_ByteBuilder (List Int)) (chunk : List Int) : B1Res (List Int) :=
  let offset := b1.used
  match AU_B1_AppendForSetup xr b1 (chunk.length : Int) with
  | .ok b1' off => .ok ⟨listWrite b1'.mem off.toNat chunk, b1'.used, b1'.cap⟩ offset
  | .err c b => .err c b

/-- The function `AU_B1_GetMemory` from AU_Builders.c, lines 87-92. -/
def AU_B1_GetMemory {μ : Type} (b1 : AU_ByteBuilder μ) : μ :=
  b1.mem

/-- The function `AU_B1_DiscardAppends` from AU_Builders.c, lines 95-100. -/
def AU_B1_DiscardAppends {μ : Type} (b1 : AU_ByteBuilder μ) : AU_ByteBuilder μ :=
  { b1 with used := 0 }

/-- The function `AU_B1_DiscardLastBytes` from AU_Builders.c, lines
102-109.  The assertions `n >= 0` and `used >= n` are preconditions. -/
def AU_B1_DiscardLastBytes {μ : Type} (b1 : AU_ByteBuilder μ) (n : Int) : AU_ByteBuilder μ :=
  { b1 with used := b1.used - n }

/-- The struct `AU_FixedSizeBuilder` from AU.h: an underlying byte builder
plus the element size. -/
structure AU_FixedSizeBuilder where
  b1 : AU_ByteBuilder (List Int)
  elt_size : Int
deriving DecidableEq

/-- The function `AU_FSB_Setup` from AU_Builders.c, lines 131-146: sets up
the underlying byte builder with `elt_size * cap` bytes.  The assertions
`cap > 0`, `elt_size > 0` and `cap <= LONG_MAX/elt_size` are
preconditions. -/
def AU_FSB_Setup (mok : Bool) (elt_size cap : Int) : Option AU_FixedSizeBuilder :=
  (AU_B1_Setup mok (elt_size * cap)).map fun b => ⟨b, elt_size⟩

/-- A C pointer value as returned by the `void *` functions: the null
pointer, a pointer `base + off` into the builder's (non-null) allocation,
or an integer converted to a pointer (the conversion C performs in
`return AU_ERR_OVERFLOW;` inside a function returning `void *`). -/
inductive CPtr where
  | null
  | addr (off : Int)
  | ofInt (v : Int)
deriving DecidableEq

/-- The null test `!p` a caller of the library applies to a returned
pointer (the library itself uses it on the result of
`AU_B1_AppendForSetup`): `addr` points into a live allocation and is
never null; an integer cast to a pointer is null exactly when the integer
is 0. -/
def CPtr.isNull : CPtr → Bool
  | .null => true
  | .addr _ => false
  | .ofInt v => v == 0

/-- The function `AU_FSB_Append` from AU_Builders.c, lines 148-165: rejects
`n != 0 && elt_size > LONG_MAX/n` (C truncating division) with
`AU_ERR_OVERFLOW` before multiplying, then forwards `n*elt_size` bytes
read from the source region to `AU_B1_Append` and divides the returned
byte offset back down.  A failed byte append makes it return the `-1`
from `AU_B1_Append`. -/
def AU_FSB_Append (xr : List Int → Int → Option (List Int))
    (fsb : AU_FixedSizeBuilder) (chunk : List Int) (n : Int) : AU_FixedSizeBuilder × Int :=
  if n ≠ 0 ∧ fsb.elt_size > Int.tdiv LONG_MAX n then
    (fsb, AU_ERR_OVERFLOW)
  else
    match AU_B1_Append xr fsb.b1 (List.takeD (n * fsb.elt_size).toNat chunk 0) with
    | .ok b' off => (⟨b', fsb.elt_size⟩, Int.tdiv off fsb.elt_size)
    | .err _ b' => (⟨b', fsb.elt_size⟩, -1)

/-- The function `AU_FSB_AppendForSetup` from AU_Builders.c, lines 167-181:
same overflow check as `AU_FSB_Append`, but the function returns `void *`
and its overflow branch is literally `return AU_ERR_OVERFLOW;` — an `int`
error code converted to a pointer value, modelled by `CPtr.ofInt`. -/
def AU_FSB_AppendForSetup (xr : List Int → Int → Option (List Int))
    (fsb : AU_FixedSizeBuilder) (n : Int) : AU_FixedSizeBuilder × CPtr :=
  if n ≠ 0 ∧ fsb.elt_size > Int.tdiv LONG_MAX n then
    (fsb, CPtr.ofInt AU_ERR_OVERFLOW)
  else
    match AU_B1_AppendForSetup xr fsb.b1 (n * fsb.elt_size) with
    | .ok b' off => (⟨b', fsb.elt_size⟩, CPtr.addr off)
    | .err _ b' => (⟨b', fsb.elt_size⟩, CPtr.null)

/-- The function `AU_FSB_DiscardAppends` from AU_Builders.c, lines 190-195. -/
def AU_FSB_DiscardAppends (fsb : AU_FixedSizeBuilder) : AU_FixedSizeBuilder :=
  ⟨AU_B1_DiscardAppends fsb.b1, fsb.elt_size⟩

/-- The function `AU_FSB_DiscardLastAppends` from AU_Builders.c, lines
197-205.  The assertions (`n >= 0`, `n == 0 || elt_size <= LONG_MAX/n`,
`used/elt_size >= n`) are preconditions. -/
def AU_FSB_DiscardLastAppends (fsb : AU_FixedSizeBuilder) (n : Int) : AU_FixedSizeBuilder :=
  ⟨AU_B1_DiscardLastBytes fsb.b1 (n * fsb.elt_size), fsb.elt_size⟩

/-- The function `Align` from AU_Builders.c, lines 229-233:
`(n + ALIGNMENT_BOUNDARY - 1)/ALIGNMENT_BOUNDARY * ALIGNMENT_BOUNDARY`
with C truncating division (`Int.tdiv`).  Its assertion
`n <= LONG_MAX - ALIGNMENT_BOUNDARY + 1` guards the addition; the
variable-size-builder operations below model a violation of it
explicitly (see `VSBRes.ub`), because the claims are about exactly that
failure mode. -/
def Align (n : Int) : Int :=
  Int.tdiv (n + ALIGNMENT_BOUNDARY - 1) ALIGNMENT_BOUNDARY * ALIGNMENT_BOUNDARY

/-- Result of a variable-size-builder operation: success with the updated
builder and returned offset, a caller-reported failure with the
`ISSUE_ERROR` code, or `ub` — the path on which the assertion inside
`Align` fails (a debug-build abort; in a build with `NDEBUG` the
computation `n + ALIGNMENT_BOUNDARY - 1` overflows `long`, which is
undefined behaviour).  No error code ever reaches the caller on the `ub`
path. -/
inductive VSBRes (μ : Type) where
  | ok (vsb : AU_ByteBuilder μ) (off : Int)
  | err (code : Int) (vsb : AU_ByteBuilder μ)
  | ub
deriving DecidableEq

/-- Result of a setup call: the set-up builder, a reported allocation
failure, or the `Align` assertion/overflow path (for `AU_VSB_Setup`). -/
inductive SetupRes (μ : Type) where
  | ok (b1 : AU_ByteBuilder μ)
  | fail
  | ub
deriving DecidableEq

/-- The function `AU_VSB_Setup` from AU_Builders.c, lines 235-238:
`AU_B1_Setup(vsb, Align(cap))`, with the `Align` assertion made
explicit. -/
def AU_VSB_Setup (mok : Bool) (cap : Int) : SetupRes (List Int) :=
  if cap ≤ LONG_MAX - ALIGNMENT_BOUNDARY + 1 then
    match AU_B1_Setup mok (Align cap) with
    | some b => .ok b
    | none => .fail
  else
    .ub

/-- The function `AU_VSB_Append` from AU_Builders.c, lines 240-243:
`AU_B1_Append(vsb, mem, Align(n))`, with the `Align` assertion made
explicit.  The C call copies `Align(n)` bytes from the source region, so
the model reads that many bytes from it (`List.takeD`). -/
def AU_VSB_Append (xr : List Int → Int → Option (List Int))
    (vsb : AU_ByteBuilder (List Int)) (chunk : List Int) (n : Int) : VSBRes (List Int) :=
  if n ≤ LONG_MAX - ALIGNMENT_BOUNDARY + 1 then
    match AU_B1_Append xr vsb (List.takeD (Align n).toNat chunk 0) with
    | .ok b o => .ok b o
    | .err c b => .err c b
  else
    .ub

/-- The function `AU_VSB_AppendForSetup` from AU_Builders.c, lines 245-248:
`AU_B1_AppendForSetup(vsb, Align(n))`, with the `Align` assertion made
explicit.  Generic in the memory model because the stack allocator calls
it on its own arena. -/
def AU_VSB_AppendForSetup {μ : Type} (xr : μ → Int → Option μ)
    (vsb : AU_ByteBuilder μ) (n : Int) : VSBRes μ :=
  if n ≤ LONG_MAX - ALIGNMENT_BOUNDARY + 1 then
    match AU_B1_AppendForSetup xr vsb (Align n) with
    | .ok b o => .ok b o
    | .err c b => .err c b
  else
    .ub

/-- The function `AU_VSB_GetMemory` from AU_Builders.c, lines 250-253. -/
def AU_VSB_GetMemory {μ : Type} (vsb : AU_ByteBuilder μ) : μ :=
  AU_B1_GetMemory vsb

/-- The function `AU_VSB_DiscardAppends` from AU_Builders.c, lines 255-258. -/
def AU_VSB_DiscardAppends {μ : Type} (vsb : AU_ByteBuilder μ) : AU_ByteBuilder μ :=
  AU_B1_DiscardAppends vsb

/-- Memory model of the stack allocator's arena: the log of `long` stores,
as `(byte offset, value)` pairs, most recent first.  The stack allocator
only ever stores and loads whole `long`s at 16-aligned offsets, so
distinct offsets never partially overlap.  Only stores that lie inside
the `cap`-byte heap block are ever recorded in the log: a store past the
block is undefined behaviour in C and is not preserved by `realloc`
(which copies only `min(old, new)` bytes), so `AU_SA_Alloc` below makes
such a store an explicit `ub` result instead of logging it.  Every logged
store therefore lies within the block at store time, and since the block
only grows (`b1NewCap cap >= cap`), `xrealloc`'s contract preserves every
logged store — a contents-preserving `xr` argument is the faithful model
of a succeeding `realloc`. -/
def SlotMem : Type := List (Int × Int)

instance : DecidableEq SlotMem := by
  unfold SlotMem
  infer_instance

/-- The load `*(long*)(base + o)` from the stack allocator's arena. -/
def memRead : SlotMem → Int → Int
  | [], _ => 0
  | (p, v) :: rest, o => if p = o then v else memRead rest o

/-- The value `Align(sizeof where_now)` = `Align(sizeof(long))` = `Align(8)`
used by `AU_SA_Alloc` and `AU_SA_Free` (in `AU_SA_Free` the local constant
is declared without a type and defaults to `int`; the value 16 is
unaffected). -/
def where_now_align : Int := Align 8

/-- The function `AU_SA_Setup` from AU_Builders.c, lines 264-269:
`AU_VSB_Setup(sa, cap)` instantiated with the stack allocator's memory
model (a fresh allocation has an empty store log).  The assertion
`cap > 0` is a precondition. -/
def AU_SA_Setup (mok : Bool) (cap : Int) : SetupRes SlotMem :=
  if cap ≤ LONG_MAX - ALIGNMENT_BOUNDARY + 1 then
    if mok then .ok ⟨([] : SlotMem), 0, Align cap⟩ else .fail
  else
    .ub

/-- The function `AU_SA_Alloc` from AU_Builders.c, lines 271-287: reserves
`Align(n) + Align(sizeof(long))` bytes through `AU_VSB_AppendForSetup`,
stores the previous `used` into the `long` marker slot that follows the
`Align(n)`-byte payload, and returns the payload pointer.  The first
guard is the assertion inside `Align(n)`; the second guard is NOT in the
source: the source adds `n_align + where_now_align` unchecked, and when
the sum exceeds `LONG_MAX` that signed addition is undefined behaviour,
modelled as `ub`.  The innermost guard is not a check the source makes
either: the source stores the marker unconditionally at `mem + n_align`,
and when those 8 bytes (`sizeof(long)`) do not lie inside the
`cap`-byte heap block — which a "successful" reservation can produce,
because growth doubles only once (see `claim_C1`) — the store is out of
bounds, undefined behaviour modelled as `ub` (see the comment on
`SlotMem`).  The assertion `n >= 0` is a precondition. -/
def AU_SA_Alloc (xr : SlotMem → Int → Option SlotMem)
    (sa : AU_ByteBuilder SlotMem) (n : Int) : VSBRes SlotMem :=
  if n ≤ LONG_MAX - ALIGNMENT_BOUNDARY + 1 then
    if Align n ≤ LONG_MAX - where_now_align then
      match AU_VSB_AppendForSetup xr sa (Align n + where_now_align) with
      | .ok sa' off =>
        if 0 ≤ off + Align n ∧ off + Align n + 8 ≤ sa'.cap then
          .ok ⟨((off + Align n, sa.used) :: sa'.mem : SlotMem), sa'.used, sa'.cap⟩ off
        else
          .ub
      | .err c sa' => .err c sa'
      | .ub => .ub
    else
      .ub
  else
    .ub

/-- The loop of `AU_SA_Free` from AU_Builders.c, lines 296-301: starting
from the cursor `base + off`, each step moves the cursor back by
`where_now_align` bytes and replaces it by `base +` the `long` stored
there. -/
def saFreeSteps (m : SlotMem) : Int → Nat → Int
  | off, 0 => off
  | off, k + 1 => saFreeSteps m (memRead m (off - where_now_align)) k

/-- The function `AU_SA_Free` from AU_Builders.c, lines 289-303: walks the
marker chain back `n` frames and stores the final cursor offset into
`used`.  The assertion `n >= 0` is a precondition, as is the claim-level
requirement that `n` not exceed the number of live frames. -/
def AU_SA_Free (sa : AU_ByteBuilder SlotMem) (n : Int) : AU_ByteBuilder SlotMem :=
  { sa with used := saFreeSteps sa.mem sa.used n.toNat }

/-- The function `AU_SA_Destroy` from AU_Builders.c, lines 305-308 releases
the backing allocation; with explicit state passing it returns nothing. -/
def AU_SA_Destroy (_sa : AU_ByteBuilder SlotMem) : Unit := ()

/-- The live frames of a stack allocator, listed from the most recent one
down: `FramesInv m u (s :: fs)` says the marker slot `u - 16` holds the
start offset `s` of the topmost frame (the value `used` had just before
that frame's `AU_SA_Alloc`), and below `s` the remaining frames `fs`
continue; with no live frames `used` is 0, as after `AU_SA_Setup`.  The
lemmas `framesInv_setup`, `sa_alloc_framesInv` and `sa_free_framesInv`
show this predicate holds in every state reachable by `AU_SA_Alloc` and
`AU_SA_Free` from a successful `AU_SA_Setup`. -/
def FramesInv (m : SlotMem) : Int → List Int → Prop
  | u, [] => u = 0
  | u, s :: fs => memRead m (u - where_now_align) = s ∧ 0 ≤ s ∧
      s + where_now_align ≤ u ∧ FramesInv m s fs

/-- Every value of `Align` is a multiple of `ALIGNMENT_BOUNDARY`. -/
lemma align_dvd (n : Int) : ALIGNMENT_BOUNDARY ∣ Align n :=
  dvd_mul_left _ _

/-- The value of `Align` is nonnegative on nonnegative arguments. -/
lemma align_nonneg {n : Int} (hn : 0 ≤ n) : 0 ≤ Align n := by
  unfold Align ALIGNMENT_BOUNDARY
  have : (0 : Int) ≤ Int.tdiv (n + 16 - 1) 16 := Int.tdiv_nonneg (by omega) (by norm_num)
  omega

/-- The value of `Align`, clamped to `Nat` and cast back (the length of the
byte list `AU_VSB_Append` copies), is still a multiple of
`ALIGNMENT_BOUNDARY`. -/
lemma align_toNat_dvd (n : Int) : ALIGNMENT_BOUNDARY ∣ ((Align n).toNat : Int) := by
  rcases le_or_lt 0 (Align n) with hp | hn
  · rw [Int.toNat_of_nonneg hp]
    exact align_dvd n
  · rw [Int.toNat_of_nonpos (le_of_lt hn)]
    exact dvd_zero _

/-- A nonnegative multiple of `ALIGNMENT_BOUNDARY` is a fixed point of
`Align`. -/
lemma align_eq_of_dvd {x : Int} (hx : 0 ≤ x) (hd : ALIGNMENT_BOUNDARY ∣ x) :
    Align x = x := by
  unfold ALIGNMENT_BOUNDARY at hd
  unfold Align ALIGNMENT_BOUNDARY
  rw [Int.tdiv_eq_ediv (by omega) (by norm_num)]
  omega

/-- C1.  The claim says an append of a chunk larger than the remaining
capacity doubles `cap` at least until it accommodates the chunk, so that
`used <= cap` still holds after a successful append.  The code (lines
67-81 of AU_Builders.c) doubles exactly once, with no loop: on the byte
builder produced by `AU_B1_Setup(4)` an `AU_B1_AppendForSetup` of size 9
succeeds with `cap` grown only to 8 and `used` set to 9, so the doubled
capacity does not accommodate the chunk and `used <= cap` is violated —
the next operation would fail the code's own `ASSERT_VALID_B1`.  This
theorem evaluates the code at that failing input. -/
theorem claim_C1 :
    AU_B1_Setup true 4 = some ⟨List.replicate 4 0, 0, 4⟩ ∧
    AU_B1_AppendForSetup (xreallocBytes true) ⟨List.replicate 4 0, 0, 4⟩ 9 =
      .ok ⟨List.replicate 8 0, 9, 8⟩ 0 ∧
    ¬ ((9 : Int) ≤ 8) := by
  refine ⟨by decide, by decide, by decide⟩

/-- C2.  The claim says `0 <= used <= cap` holds after every operation of
every builder reachable from a successful `AU_B1_Setup` by operations
respecting their stated preconditions.  The single-doubling growth bug
(see `claim_C1`) breaks it: from `AU_B1_Setup(5)`, the call
`AU_B1_Append` of an 11-byte chunk — which respects every stated
precondition (`size >= 0`, valid builder, non-null source) — succeeds and
leaves `used = 11 > 10 = cap`.  This theorem evaluates the code at that
failing input. -/
theorem claim_C2 :
    AU_B1_Setup true 5 = some ⟨List.replicate 5 0, 0, 5⟩ ∧
    AU_B1_Append (xreallocBytes true) ⟨List.replicate 5 0, 0, 5⟩ (List.replicate 11 1) =
      .ok ⟨List.replicate 10 1, 11, 10⟩ 0 ∧
    ¬ ((11 : Int) ≤ 10) := by
  refine ⟨by decide, by decide, by decide⟩

/-- C4.  The claim says that after any sequence of successful appends the
offsets are the partial sums of the chunk sizes and the builder's memory
reproduces every chunk exactly.  The offsets part holds (below: 0 and 3),
but the single-doubling growth bug makes the content part fail: on a
builder of capacity 4, appending `[1,2,3]` and then `[4,5,6,7,8,9]`
"succeeds" while growing the allocation only to 8 bytes, so the last
byte of the second chunk (value 9, at offset 3 + 5 = 8) lies outside the
8-byte allocation — in C the `memcpy` writes past the end of the heap
block (undefined behaviour), and the allocation does not contain the
byte.  This theorem evaluates the code at that failing input. -/
theorem claim_C4 :
    AU_B1_Append (xreallocBytes true) ⟨List.replicate 4 0, 0, 4⟩ [1, 2, 3] =
      .ok ⟨[1, 2, 3, 0], 3, 4⟩ 0 ∧
    AU_B1_Append (xreallocBytes true) ⟨[1, 2, 3, 0], 3, 4⟩ [4, 5, 6, 7, 8, 9] =
      .ok ⟨[1, 2, 3, 4, 5, 6, 7, 8], 9, 8⟩ 3 ∧
    ([1, 2, 3, 4, 5, 6, 7, 8] : List Int).getD (3 + 5) 0 ≠ 9 := by
  refine ⟨by decide, by decide, by decide⟩

/-- C5.  When an append triggers growth and `xrealloc` fails, the call
fails with `AU_ERR_XREALLOC` and the builder handed back to the caller is
exactly the one from before the call: same `used`, `cap`, `mem` and
contents.  The hypotheses are the growth trigger (`used + size > cap`
with the preceding overflow checks passed); the failing `xrealloc` is the
`xreallocBytes false` allocator behaviour. -/
theorem claim_C5 (b1 : AU_ByteBuilder (List Int)) (size : Int)
    (hof : ¬ b1.used > LONG_MAX - size)
    (hgrow : b1.used + size > b1.cap)
    (hcap : b1.cap ≠ LONG_MAX) :
    AU_B1_AppendForSetup (xreallocBytes false) b1 size = .err AU_ERR_XREALLOC b1 ∧
    (∀ chunk : List Int, (chunk.length : Int) = size →
      AU_B1_Append (xreallocBytes false) b1 chunk = .err AU_ERR_XREALLOC b1) := by
  have hfs : AU_B1_AppendForSetup (xreallocBytes false) b1 size = .err AU_ERR_XREALLOC b1 := by
    unfold AU_B1_AppendForSetup xreallocBytes
    rw [if_neg hof, if_pos hgrow, if_neg hcap]
    simp
  refine ⟨hfs, fun chunk hlen => ?_⟩
  unfold AU_B1_Append
  rw [hlen, hfs]

/-- Closed instance of `claim_C5`: a full builder of capacity 4 appending
one more byte under a failing `xrealloc`. -/
theorem claim_C5_witness :
    (¬ ((⟨[0, 0, 0, 0], 4, 4⟩ : AU_ByteBuilder (List Int)).used > LONG_MAX - 1)) ∧
    ((⟨[0, 0, 0, 0], 4, 4⟩ : AU_ByteBuilder (List Int)).used + 1 >
      (⟨[0, 0, 0, 0], 4, 4⟩ : AU_ByteBuilder (List Int)).cap) ∧
    ((⟨[0, 0, 0, 0], 4, 4⟩ : AU_ByteBuilder (List Int)).cap ≠ LONG_MAX) ∧
    (AU_B1_AppendForSetup (xreallocBytes false) ⟨[0, 0, 0, 0], 4, 4⟩ 1 =
      .err AU_ERR_XREALLOC ⟨[0, 0, 0, 0], 4, 4⟩ ∧
    (∀ chunk : List Int, (chunk.length : Int) = 1 →
      AU_B1_Append (xreallocBytes false) ⟨[0, 0, 0, 0], 4, 4⟩ chunk =
        .err AU_ERR_XREALLOC ⟨[0, 0, 0, 0], 4, 4⟩)) :=
  ⟨by decide, by decide, by decide,
    claim_C5 ⟨[0, 0, 0, 0], 4, 4⟩ 1 (by decide) (by decide) (by decide)⟩

/-- C6, counterexample.  The claim says a size whose rounding up to
`ALIGNMENT_BOUNDARY` would exceed `LONG_MAX` makes the operation report
an overflow error to the caller.  At `n = LONG_MAX` every
variable-size-builder operation instead hits the failed assertion inside
`Align` (the `ub` path: a debug abort, or undefined signed overflow with
`NDEBUG`); no `AU_ERR_OVERFLOW` — no error code at all — reaches the
caller. -/
theorem claim_C6_cex :
    AU_VSB_AppendForSetup (xreallocBytes true) ⟨List.replicate 16 0, 0, 16⟩ LONG_MAX =
      VSBRes.ub ∧
    AU_VSB_Append (xreallocBytes true) ⟨List.replicate 16 0, 0, 16⟩ [] LONG_MAX =
      VSBRes.ub ∧
    AU_VSB_Setup true LONG_MAX = SetupRes.ub ∧
    (VSBRes.ub : VSBRes (List Int)) ≠
      VSBRes.err AU_ERR_OVERFLOW ⟨List.replicate 16 0, 0, 16⟩ := by
  refine ⟨by decide, by decide, by decide, by decide⟩

/-- C6, amended.  If rounding `n` up to `ALIGNMENT_BOUNDARY` would exceed
`LONG_MAX` (that is, `n > LONG_MAX - ALIGNMENT_BOUNDARY + 1`, the exact
negation of the assertion in `Align`), then `AU_VSB_Setup`,
`AU_VSB_Append` and `AU_VSB_AppendForSetup` do not report an overflow
error: they fail the assertion inside `Align` — an abort in debug builds
and undefined behaviour (silent wrapping) with `NDEBUG` — and return
nothing to the caller. -/
theorem claim_C6 (n : Int) (hn : n > LONG_MAX - ALIGNMENT_BOUNDARY + 1) :
    (∀ mok : Bool, AU_VSB_Setup mok n = SetupRes.ub) ∧
    (∀ (xr : List Int → Int → Option (List Int)) (vsb : AU_ByteBuilder (List Int))
        (chunk : List Int), AU_VSB_Append xr vsb chunk n = VSBRes.ub) ∧
    (∀ (xr : List Int → Int → Option (List Int)) (vsb : AU_ByteBuilder (List Int)),
        AU_VSB_AppendForSetup xr vsb n = VSBRes.ub) := by
  refine ⟨fun mok => ?_, fun xr vsb chunk => ?_, fun xr vsb => ?_⟩
  · unfold AU_VSB_Setup
    rw [if_neg (by omega)]
  · unfold AU_VSB_Append
    rw [if_neg (by omega)]
  · unfold AU_VSB_AppendForSetup
    rw [if_neg (by omega)]

/-- Closed instance of `claim_C6` at `n = LONG_MAX`. -/
theorem claim_C6_witness :
    LONG_MAX > LONG_MAX - ALIGNMENT_BOUNDARY + 1 ∧
    AU_VSB_Setup false LONG_MAX = SetupRes.ub ∧
    AU_VSB_Append (xreallocBytes false) ⟨[0], 0, 1⟩ [7] LONG_MAX = VSBRes.ub :=
  ⟨by decide, (claim_C6 LONG_MAX (by decide)).1 false,
    (claim_C6 LONG_MAX (by decide)).2.1 (xreallocBytes false) ⟨[0], 0, 1⟩ [7]⟩

/-- C7.  The claim says a fixed-size append whose element count would
overflow `count * elt_size` is rejected before the multiplication with an
overflow error distinguishable from every successful result.  For
`AU_FSB_Append` that holds, but `AU_FSB_AppendForSetup` — a function
returning `void *` — executes `return AU_ERR_OVERFLOW;`, converting the
`int` error code to a non-null pointer value (a constraint violation in
C).  The library's own failure convention for pointer-returning appends,
used by `AU_B1_Append` and by `AU_FSB_AppendForSetup` itself on the
`xrealloc` path, is a null return; the overflow "error" passes that null
test exactly as a successful pointer does.  This theorem evaluates the
code at the failing input `n = LONG_MAX` with `elt_size = 2` and shows
the returned value fails `isNull` just like the genuinely successful
append next to it. -/
theorem claim_C7 :
    AU_FSB_AppendForSetup (xreallocBytes true) ⟨⟨[0, 0, 0, 0], 0, 4⟩, 2⟩ LONG_MAX =
      (⟨⟨[0, 0, 0, 0], 0, 4⟩, 2⟩, CPtr.ofInt AU_ERR_OVERFLOW) ∧
    CPtr.isNull (CPtr.ofInt AU_ERR_OVERFLOW) = false ∧
    AU_FSB_AppendForSetup (xreallocBytes true) ⟨⟨[0, 0, 0, 0], 0, 4⟩, 2⟩ 1 =
      (⟨⟨[0, 0, 0, 0], 2, 4⟩, 2⟩, CPtr.addr 0) ∧
    CPtr.isNull (CPtr.addr 0) = false := by
  refine ⟨by decide, by decide, by decide, by decide⟩

/-- C8.  The claim says `used` and `cap` of a fixed-size builder are
always exact multiples of `elt_size`, including after appends that grow
the capacity.  Growth clamps the capacity to `LONG_MAX` (line 73 of
AU_Builders.c), and `LONG_MAX = 2^63 - 1` is odd, so with `elt_size = 2`
the invariant breaks: from the in-contract `AU_FSB_Setup(elt_size = 2,
cap = 2^61 + 1)` (its assertion `cap <= LONG_MAX/elt_size` holds), the
in-contract append of `2^61 + 2` elements passes the overflow check,
triggers clamped growth and leaves `cap = LONG_MAX`, not a multiple of 2
— the code's own `ASSERT_VALID_FSB` (`elt_size <= LONG_MAX / cap`) fails
on the next operation.  This theorem evaluates the code at that failing
input. -/
theorem claim_C8 :
    ((AU_FSB_Setup true 2 (2 ^ 61 + 1)).map (fun fsb0 =>
        ((AU_FSB_AppendForSetup (xreallocBytes true) fsb0 (2 ^ 61 + 2)).1.b1.used,
         (AU_FSB_AppendForSetup (xreallocBytes true) fsb0 (2 ^ 61 + 2)).1.b1.cap))) =
      some (2 ^ 62 + 4, LONG_MAX) ∧
    (2 : Int) ∣ 2 ^ 62 + 4 ∧
    ¬ (2 : Int) ∣ LONG_MAX := by
  refine ⟨by decide, by decide, by decide⟩

/-- C10.  The claim says every arithmetic operation in the library that
could wrap — explicitly including the stack allocator's total reservation
`Align(n) + Align(marker_size)` — is preceded by a check against the
maximum representable size.  The reservation sum in `AU_SA_Alloc` (line
281 of AU_Builders.c) has no preceding check of any kind: for
`n = LONG_MAX - 15`, which satisfies the function's only stated
precondition `n >= 0` and the assertion inside `Align`, the sum
`Align(n) + Align(sizeof(long)) = 2^63` exceeds `LONG_MAX` and the signed
addition overflows (undefined behaviour) — the `ub` result below comes
from the guard the model inserts to mark exactly that unchecked sum.
This theorem evaluates the code at that failing input. -/
theorem claim_C10 :
    (0 : Int) ≤ LONG_MAX - 15 ∧
    LONG_MAX - 15 ≤ LONG_MAX - ALIGNMENT_BOUNDARY + 1 ∧
    LONG_MAX < Align (LONG_MAX - 15) + where_now_align ∧
    AU_SA_Alloc (fun m _ => some m) ⟨([] : SlotMem), 0, 16⟩ (LONG_MAX - 15) = VSBRes.ub := by
  refine ⟨by decide, by decide, by decide, by decide⟩

/-- A successful `AU_B1_AppendForSetup` advances `used` by exactly `size`
and returns the old `used` as the offset of the reserved region. -/
lemma b1_appendForSetup_ok_inv {μ : Type} {xr : μ → Int → Option μ}
    {b1 b' : AU_ByteBuilder μ} {size off : Int}
    (h : AU_B1_AppendForSetup xr b1 size = .ok b' off) :
    b'.used = b1.used + size ∧ off = b1.used := by
  unfold AU_B1_AppendForSetup at h
  split at h
  · exact absurd h (by simp)
  · split at h
    · split at h
      · exact absurd h (by simp)
      · split at h
        · exact absurd h (by simp)
        · cases h
          exact ⟨rfl, rfl⟩
    · cases h
      exact ⟨rfl, rfl⟩

/-- A successful `AU_B1_AppendForSetup` under an `xrealloc` that preserves
the memory contents (as the stack allocator's store-log model does) keeps
`mem` unchanged. -/
lemma b1_appendForSetup_ok_mem {μ : Type} {xr : μ → Int → Option μ}
    {b1 b' : AU_ByteBuilder μ} {size off : Int}
    (hxr : ∀ m c p, xr m c = some p → p = m)
    (h : AU_B1_AppendForSetup xr b1 size = .ok b' off) :
    b'.mem = b1.mem := by
  unfold AU_B1_AppendForSetup at h
  split at h
  · exact absurd h (by simp)
  · split at h
    · split at h
      · exact absurd h (by simp)
      · split at h
        · exact absurd h (by simp)
        · next p hp =>
          cases h
          exact hxr _ _ _ hp
    · cases h
      rfl

/-- A failed `AU_B1_AppendForSetup` hands back the untouched builder. -/
lemma b1_appendForSetup_err_inv {μ : Type} {xr : μ → Int → Option μ}
    {b1 b' : AU_ByteBuilder μ} {size code : Int}
    (h : AU_B1_AppendForSetup xr b1 size = .err code b') :
    b' = b1 := by
  unfold AU_B1_AppendForSetup at h
  split at h
  · cases h
    rfl
  · split at h
    · split at h
      · cases h
        rfl
      · split at h
        · cases h
          rfl
        · exact absurd h (by simp)
    · exact absurd h (by simp)

/-- A successful `AU_B1_Append` advances `used` by the chunk length and
returns the old `used` as the chunk's offset. -/
lemma b1_append_ok_inv {xr : List Int → Int → Option (List Int)}
    {b1 b' : AU_ByteBuilder (List Int)} {chunk : List Int} {off : Int}
    (h : AU_B1_Append xr b1 chunk = .ok b' off) :
    b'.used = b1.used + chunk.length ∧ off = b1.used := by
  unfold AU_B1_Append at h
  rcases hB : AU_B1_AppendForSetup xr b1 ((chunk.length : Int)) with _ | _
  · rw [hB] at h
    cases h
    exact ⟨(b1_appendForSetup_ok_inv hB).1, rfl⟩
  · rw [hB] at h
    exact absurd h (by simp)

/-- A failed `AU_B1_Append` hands back the untouched builder. -/
lemma b1_append_err_inv {xr : List Int → Int → Option (List Int)}
    {b1 b' : AU_ByteBuilder (List Int)} {chunk : List Int} {code : Int}
    (h : AU_B1_Append xr b1 chunk = .err code b') :
    b' = b1 := by
  unfold AU_B1_Append at h
  rcases hB : AU_B1_AppendForSetup xr b1 ((chunk.length : Int)) with _ | _
  · rw [hB] at h
    exact absurd h (by simp)
  · rw [hB] at h
    cases h
    exact b1_appendForSetup_err_inv hB

/-- C9.  On a variable size builder whose `used` is a multiple of
`ALIGNMENT_BOUNDARY` — and `AU_VSB_Setup` establishes exactly that, first
conjunct — every VSB operation keeps `used` a multiple of
`ALIGNMENT_BOUNDARY`, whether it succeeds or fails, and every successful
append returns the offset of a region whose start is a multiple of
`ALIGNMENT_BOUNDARY`: the returned pointer is `base + offset`, so when
the base allocation is maximally aligned the address is too.  Holds for
every `xrealloc` behaviour, every chunk and every requested size. -/
theorem claim_C9 (vsb : AU_ByteBuilder (List Int))
    (h : ALIGNMENT_BOUNDARY ∣ vsb.used) :
    (∀ (mok : Bool) (cap : Int) (b0 : AU_ByteBuilder (List Int)),
      AU_VSB_Setup mok cap = .ok b0 → ALIGNMENT_BOUNDARY ∣ b0.used) ∧
    (∀ (xr : List Int → Int → Option (List Int)) (n : Int),
      match AU_VSB_AppendForSetup xr vsb n with
      | .ok v off => ALIGNMENT_BOUNDARY ∣ v.used ∧ ALIGNMENT_BOUNDARY ∣ off
      | .err _ v => ALIGNMENT_BOUNDARY ∣ v.used
      | .ub => True) ∧
    (∀ (xr : List Int → Int → Option (List Int)) (chunk : List Int) (n : Int),
      match AU_VSB_Append xr vsb chunk n with
      | .ok v off => ALIGNMENT_BOUNDARY ∣ v.used ∧ ALIGNMENT_BOUNDARY ∣ off
      | .err _ v => ALIGNMENT_BOUNDARY ∣ v.used
      | .ub => True) ∧
    ALIGNMENT_BOUNDARY ∣ (AU_VSB_DiscardAppends vsb).used := by
  refine ⟨?_, ?_, ?_, ?_⟩
  · intro mok cap b0 hset
    unfold AU_VSB_Setup AU_B1_Setup at hset
    split at hset
    · cases mok with
      | true => simp at hset; rw [← hset]; exact dvd_zero _
      | false => simp at hset
    · exact absurd hset (by simp)
  · intro xr n
    unfold AU_VSB_AppendForSetup
    by_cases hbound : n ≤ LONG_MAX - ALIGNMENT_BOUNDARY + 1
    · rw [if_pos hbound]
      rcases hB : AU_B1_AppendForSetup xr vsb (Align n) with ⟨b', o⟩ | ⟨c, b'⟩
      · show ALIGNMENT_BOUNDARY ∣ b'.used ∧ ALIGNMENT_BOUNDARY ∣ o
        obtain ⟨hu, ho⟩ := b1_appendForSetup_ok_inv hB
        rw [hu, ho]
        exact ⟨dvd_add h (align_dvd n), h⟩
      · show ALIGNMENT_BOUNDARY ∣ b'.used
        rw [b1_appendForSetup_err_inv hB]
        exact h
    · rw [if_neg hbound]
      trivial
  · intro xr chunk n
    unfold AU_VSB_Append
    have hlen : ALIGNMENT_BOUNDARY ∣ (((List.takeD (Align n).toNat chunk 0).length : Nat) : Int) := by
      rw [List.takeD_length]
      exact align_toNat_dvd n
    by_cases hbound : n ≤ LONG_MAX - ALIGNMENT_BOUNDARY + 1
    · rw [if_pos hbound]
      rcases hB : AU_B1_Append xr vsb (List.takeD (Align n).toNat chunk 0) with ⟨b', o⟩ | ⟨c, b'⟩
      · show ALIGNMENT_BOUNDARY ∣ b'.used ∧ ALIGNMENT_BOUNDARY ∣ o
        obtain ⟨hu, ho⟩ := b1_append_ok_inv hB
        rw [hu, ho]
        exact ⟨dvd_add h hlen, h⟩
      · show ALIGNMENT_BOUNDARY ∣ b'.used
        rw [b1_append_err_inv hB]
        exact h
    · rw [if_neg hbound]
      trivial
  · unfold AU_VSB_DiscardAppends AU_B1_DiscardAppends
    exact dvd_zero _

/-- Closed instance of `claim_C9`: a fresh 16-byte builder, a 5-byte
reservation and a 3-byte append (both rounded up to 16), and a discard. -/
theorem claim_C9_witness :
    ALIGNMENT_BOUNDARY ∣ (⟨List.replicate 16 0, 0, 16⟩ : AU_ByteBuilder (List Int)).used ∧
    (match AU_VSB_AppendForSetup (xreallocBytes true) ⟨List.replicate 16 0, 0, 16⟩ 5 with
      | .ok v off => ALIGNMENT_BOUNDARY ∣ v.used ∧ ALIGNMENT_BOUNDARY ∣ off
      | .err _ v => ALIGNMENT_BOUNDARY ∣ v.used
      | .ub => True) ∧
    (match AU_VSB_Append (xreallocBytes true) ⟨List.replicate 16 0, 0, 16⟩ [1, 2, 3] 3 with
      | .ok v off => ALIGNMENT_BOUNDARY ∣ v.used ∧ ALIGNMENT_BOUNDARY ∣ off
      | .err _ v => ALIGNMENT_BOUNDARY ∣ v.used
      | .ub => True) ∧
    ALIGNMENT_BOUNDARY ∣ (AU_VSB_DiscardAppends ⟨List.replicate 16 0, 0, 16⟩).used :=
  ⟨by decide,
    (claim_C9 ⟨List.replicate 16 0, 0, 16⟩ (by decide)).2.1 (xreallocBytes true) 5,
    (claim_C9 ⟨List.replicate 16 0, 0, 16⟩ (by decide)).2.2.1 (xreallocBytes true) [1, 2, 3] 3,
    (claim_C9 ⟨List.replicate 16 0, 0, 16⟩ (by decide)).2.2.2⟩

/-- A successful `AU_VSB_AppendForSetup` is a successful
`AU_B1_AppendForSetup` of the rounded size. -/
lemma vsb_appendForSetup_ok_inv {μ : Type} {xr : μ → Int → Option μ}
    {vsb b' : AU_ByteBuilder μ} {n off : Int}
    (h : AU_VSB_AppendForSetup xr vsb n = .ok b' off) :
    AU_B1_AppendForSetup xr vsb (Align n) = .ok b' off := by
  unfold AU_VSB_AppendForSetup at h
  split at h
  · rcases hB : AU_B1_AppendForSetup xr vsb (Align n) with _ | _
    · rw [hB] at h
      cases h
      rfl
    · rw [hB] at h
      exact absurd h (by simp)
  · exact absurd h (by simp)

/-- The value 16 of `where_now_align`. -/
lemma where_now_align_eq : where_now_align = 16 := by decide

/-- Unfolding equation for `memRead` on a nonempty store log. -/
lemma memRead_cons (p v : Int) (rest : SlotMem) (o : Int) :
    memRead ((p, v) :: rest : SlotMem) o = if p = o then v else memRead rest o :=
  rfl

/-- Unfolding equation for one step of the `AU_SA_Free` loop. -/
lemma saFreeSteps_succ (m : SlotMem) (off : Int) (k : Nat) :
    saFreeSteps m off (k + 1) = saFreeSteps m (memRead m (off - where_now_align)) k :=
  rfl

/-- What a successful `AU_SA_Alloc` does, under an `xrealloc` that
preserves stored contents: the returned payload pointer is `base +` the
old `used` (the frame start), the new `used` lies `Align n +
where_now_align` bytes further, and the only new store is the frame
marker — the old `used` written at offset `frame start + Align n`. -/
lemma sa_alloc_ok_inv {xr : SlotMem → Int → Option SlotMem}
    (hxr : ∀ m c p, xr m c = some p → p = m)
    {sa sa' : AU_ByteBuilder SlotMem} {n off : Int} (hn : 0 ≤ n)
    (h : AU_SA_Alloc xr sa n = .ok sa' off) :
    off = sa.used ∧
    sa'.used = sa.used + (Align n + where_now_align) ∧
    sa'.mem = ((sa.used + Align n, sa.used) :: sa.mem : SlotMem) := by
  have hw : where_now_align = 16 := where_now_align_eq
  have hsum_nonneg : 0 ≤ Align n + where_now_align := by
    have := align_nonneg hn
    omega
  have hwd : ALIGNMENT_BOUNDARY ∣ where_now_align := align_dvd 8
  have hdvd : ALIGNMENT_BOUNDARY ∣ (Align n + where_now_align) :=
    dvd_add (align_dvd n) hwd
  have hAA : Align (Align n + where_now_align) = Align n + where_now_align :=
    align_eq_of_dvd hsum_nonneg hdvd
  unfold AU_SA_Alloc at h
  split at h
  · split at h
    · rcases hV : AU_VSB_AppendForSetup xr sa (Align n + where_now_align) with
        ⟨sa1, off1⟩ | ⟨c, sa1⟩ | _
      · rw [hV] at h
        split at h
        · next heq =>
          cases heq
          split at h
          · cases h
            have hB := vsb_appendForSetup_ok_inv hV
            rw [hAA] at hB
            obtain ⟨hu, ho⟩ := b1_appendForSetup_ok_inv hB
            have hm := b1_appendForSetup_ok_mem hxr hB
            exact ⟨ho, hu, by rw [ho, hm]⟩
          · exact absurd h (by simp)
        · next heq =>
          exact absurd heq (by simp)
        · next heq =>
          exact absurd heq (by simp)
      · rw [hV] at h
        exact absurd h (by simp)
      · rw [hV] at h
        exact absurd h (by simp)
    · exact absurd h (by simp)
  · exact absurd h (by simp)

/-- A stack allocator state carrying live frames has nonnegative `used`. -/
lemma framesInv_nonneg {m : SlotMem} {u : Int} {fs : List Int}
    (h : FramesInv m u fs) : 0 ≤ u := by
  have hw : where_now_align = 16 := where_now_align_eq
  cases fs with
  | nil =>
    have hu : u = 0 := h
    omega
  | cons s fs =>
    obtain ⟨-, h2, h3, -⟩ := h
    omega

/-- `FramesInv` only reads the marker slots at offsets at most
`u - where_now_align`, so any memory agreeing with `m1` there carries the
same frames. -/
lemma framesInv_mono {m1 m2 : SlotMem} {u : Int} {fs : List Int}
    (hag : ∀ o, o ≤ u - where_now_align → memRead m2 o = memRead m1 o)
    (h : FramesInv m1 u fs) : FramesInv m2 u fs := by
  induction fs generalizing u with
  | nil => exact h
  | cons s fs ih =>
    obtain ⟨h1, h2, h3, h4⟩ := h
    have hw : where_now_align = 16 := where_now_align_eq
    refine ⟨by rw [hag _ (by omega)]; exact h1, h2, h3, ih ?_ h4⟩
    intro o ho
    exact hag o (by omega)

/-- Setting up a stack allocator yields a state with no live frames. -/
lemma framesInv_setup {mok : Bool} {cap : Int} {sa : AU_ByteBuilder SlotMem}
    (h : AU_SA_Setup mok cap = .ok sa) : FramesInv sa.mem sa.used [] := by
  unfold AU_SA_Setup at h
  split at h
  · split at h
    · cases h
      rfl
    · exact absurd h (by simp)
  · exact absurd h (by simp)

/-- A successful `AU_SA_Alloc` pushes one live frame, whose start is the
old `used`. -/
lemma sa_alloc_framesInv {xr : SlotMem → Int → Option SlotMem}
    (hxr : ∀ m c p, xr m c = some p → p = m)
    {sa sa' : AU_ByteBuilder SlotMem} {n off : Int} {fs : List Int} (hn : 0 ≤ n)
    (hinv : FramesInv sa.mem sa.used fs)
    (h : AU_SA_Alloc xr sa n = .ok sa' off) :
    FramesInv sa'.mem sa'.used (sa.used :: fs) := by
  obtain ⟨ho, hu, hm⟩ := sa_alloc_ok_inv hxr hn h
  have hw : where_now_align = 16 := where_now_align_eq
  have hA := align_nonneg hn
  have hu0 := framesInv_nonneg hinv
  rw [hu, hm]
  refine ⟨?_, hu0, by omega, ?_⟩
  · rw [memRead_cons, if_pos (by omega)]
  · refine framesInv_mono (fun o hlim => ?_) hinv
    rw [memRead_cons, if_neg (by omega)]

/-- `AU_SA_Free` of `k` frames pops exactly the `k` most recent live
frames. -/
lemma sa_free_framesInv {m : SlotMem} {u : Int} {fs : List Int} {k : Nat}
    (hk : k ≤ fs.length) (hinv : FramesInv m u fs) :
    FramesInv m (saFreeSteps m u k) (fs.drop k) := by
  induction k generalizing u fs with
  | zero => exact hinv
  | succ k ih =>
    cases fs with
    | nil => exact absurd hk (by simp)
    | cons s fs =>
      obtain ⟨h1, -, -, h4⟩ := hinv
      have hstep : saFreeSteps m u (k + 1) = saFreeSteps m s k := by
        rw [saFreeSteps_succ, h1]
      rw [hstep, List.drop_succ_cons]
      exact ih (by simpa using hk) h4

/-- Freeing as many frames as are live rewinds `used` to 0: each marker
rewinds one frame, and the bottom frame's marker holds 0. -/
lemma framesInv_free_all {m : SlotMem} {u : Int} {fs : List Int}
    (hinv : FramesInv m u fs) : saFreeSteps m u fs.length = 0 := by
  induction fs generalizing u with
  | nil => exact hinv
  | cons s fs ih =>
    obtain ⟨h1, -, -, h4⟩ := hinv
    show saFreeSteps m u (fs.length + 1) = 0
    unfold saFreeSteps
    rw [h1]
    exact ih h4

/-- The marker-rewind algorithm itself is correct when the marker stores
stay inside the heap block: from any state, after two in-bounds
`AU_SA_Alloc` calls, `AU_SA_Free 1` rewinds `used` exactly to its value
after the first allocation and `AU_SA_Free 2` exactly to its value
before both, for every contents-preserving `xrealloc` behaviour.
Supporting material for the C3 analysis: it localises the C3 failure in
the out-of-bounds marker store, not in the rewind bookkeeping. -/
lemma sa_rewind_two_frames {xr : SlotMem → Int → Option SlotMem}
    (hxr : ∀ m c p, xr m c = some p → p = m)
    {sa sa1 sa2 : AU_ByteBuilder SlotMem} {a b off1 off2 : Int}
    (ha : 0 ≤ a) (hb : 0 ≤ b)
    (h1 : AU_SA_Alloc xr sa a = .ok sa1 off1)
    (h2 : AU_SA_Alloc xr sa1 b = .ok sa2 off2) :
    (AU_SA_Free sa2 1).used = sa1.used ∧ (AU_SA_Free sa2 2).used = sa.used := by
  obtain ⟨ho1, hu1, hm1⟩ := sa_alloc_ok_inv hxr ha h1
  obtain ⟨ho2, hu2, hm2⟩ := sa_alloc_ok_inv hxr hb h2
  have hw : where_now_align = 16 := where_now_align_eq
  have hAa := align_nonneg ha
  have hAb := align_nonneg hb
  have hstep1 : memRead sa2.mem (sa2.used - where_now_align) = sa1.used := by
    rw [hm2]
    unfold memRead
    rw [if_pos (by omega)]
  constructor
  · show saFreeSteps sa2.mem sa2.used (Int.toNat 1) = sa1.used
    show saFreeSteps sa2.mem (memRead sa2.mem (sa2.used - where_now_align)) 0 = sa1.used
    rw [hstep1]
    rfl
  · show saFreeSteps sa2.mem sa2.used (Int.toNat 2) = sa.used
    show saFreeSteps sa2.mem (memRead sa2.mem (sa2.used - where_now_align)) 1 = sa.used
    rw [hstep1]
    show memRead sa2.mem (sa1.used - where_now_align) = sa.used
    rw [hm2]
    unfold memRead
    rw [if_neg (by omega)]
    rw [hm1]
    unfold memRead
    rw [if_pos (by omega)]

/-- C3.  The claim says the rewind works after any two successful allocs,
"regardless of the sizes a and b".  It fails: because growth doubles the
capacity only once (the `claim_C1` bug), a reservation the source treats
as successful can leave `used` beyond the heap block, and the frame
marker — stored at `payload + Align n`, unchecked — then lands past the
block.  Concretely, from the in-contract `AU_SA_Setup(16)`,
`AU_SA_Alloc(17)` reserves 48 bytes: the underlying append "succeeds"
(third conjunct: the block grows only to 32 bytes while `used` becomes
48 and a non-null pointer is returned), and the 8 marker bytes at
offsets 32..39 lie outside the 32-byte block (fourth conjunct) — an
out-of-bounds store, undefined behaviour, which the next `realloc` does
not preserve, so a later `AU_SA_Free(2)` in the source reads
indeterminate memory instead of restoring `used = 0`.  This theorem
evaluates the code at that failing input; `sa_rewind_two_frames` and the
`FramesInv` lemmas show the rewind itself is correct whenever the marker
stores stay in bounds. -/
theorem claim_C3 :
    AU_SA_Setup true 16 = SetupRes.ok ⟨([] : SlotMem), 0, 16⟩ ∧
    (0 : Int) ≤ 17 ∧
    AU_VSB_AppendForSetup (fun m _ => some m) ⟨([] : SlotMem), 0, 16⟩
        (Align 17 + where_now_align) = VSBRes.ok ⟨([] : SlotMem), 48, 32⟩ 0 ∧
    ¬ (0 + Align 17 + 8 ≤ (32 : Int)) ∧
    AU_SA_Alloc (fun m _ => some m) ⟨([] : SlotMem), 0, 16⟩ 17 = VSBRes.ub := by
  refine ⟨by decide, by decide, by decide, by decide, by decide⟩

end AllocUtil
